import Mathlib

/-!
Verification of the `abc.py` extractor module (youtube-dl): a shallow
embedding of the two extractor classes `ABCIE` (news-article pages) and
`ABCIViewIE` (iview catch-up pages) together with the host / stdlib
primitives they use.  Pure computations (HMAC-SHA256 signing, path
formatting, JSON-field access, format construction, the quality-tier
loop) are translated directly from the source; effectful host
collaborators (page download, regex search on raw HTML, m3u8 manifest
parsing, the token endpoint) are modelled as explicit inputs, since their
code is not part of this module.
-/

namespace AbcCrypto

/-- Mask to a 32-bit word, as the arithmetic of `hashlib` is mod 2^32. -/
def wmask (x : Nat) : Nat := x &&& 0xffffffff

/-- 32-bit modular addition. -/
def add32 (a b : Nat) : Nat := (a + b) &&& 0xffffffff

/-- 32-bit right rotation. -/
def rotr (n x : Nat) : Nat := wmask ((x >>> n) ||| (x <<< (32 - n)))

def bsig0 (x : Nat) : Nat := rotr 2 x ^^^ rotr 13 x ^^^ rotr 22 x
def bsig1 (x : Nat) : Nat := rotr 6 x ^^^ rotr 11 x ^^^ rotr 25 x
def ssig0 (x : Nat) : Nat := rotr 7 x ^^^ rotr 18 x ^^^ (x >>> 3)
def ssig1 (x : Nat) : Nat := rotr 17 x ^^^ rotr 19 x ^^^ (x >>> 10)
def ch (x y z : Nat) : Nat := (x &&& y) ^^^ ((x ^^^ 0xffffffff) &&& z)
def maj (x y z : Nat) : Nat := (x &&& y) ^^^ (x &&& z) ^^^ (y &&& z)

/-- The 64 SHA-256 round constants (FIPS 180-4), in decimal. -/
def K : List Nat :=
  [1116352408, 1899447441, 3049323471, 3921009573, 961987163,
   1508970993, 2453635748, 2870763221, 3624381080, 310598401,
   607225278, 1426881987, 1925078388, 2162078206, 2614888103,
   3248222580, 3835390401, 4022224774, 264347078, 604807628,
   770255983, 1249150122, 1555081692, 1996064986, 2554220882,
   2821834349, 2952996808, 3210313671, 3336571891, 3584528711,
   113926993, 338241895, 666307205, 773529912, 1294757372,
   1396182291, 1695183700, 1986661051, 2177026350, 2456956037,
   2730485921, 2820302411, 3259730800, 3345764771, 3516065817,
   3600352804, 4094571909, 275423344, 430227734, 506948616,
   659060556, 883997877, 958139571, 1322822218, 1537002063,
   1747873779, 1955562222, 2024104815, 2227730452, 2361852424,
   2428436474, 2756734187, 3204031479, 3329325298]

/-- SHA-256 working state: eight 32-bit words. -/
structure Hash8 where
  a : Nat
  b : Nat
  c : Nat
  d : Nat
  e : Nat
  f : Nat
  g : Nat
  h : Nat
deriving Repr, DecidableEq

/-- SHA-256 initial hash value (FIPS 180-4), in decimal. -/
def H0 : Hash8 :=
  ⟨1779033703, 3144134277, 1013904242, 2773480762,
   1359893119, 2600822924, 528734635, 1541459225⟩

/-- Group a list of bytes into big-endian 32-bit words. -/
def toWords : List Nat → List Nat
  | a :: b :: c :: d :: rest => ((((a <<< 8) ||| b) <<< 8 ||| c) <<< 8 ||| d) :: toWords rest
  | _ => []

/-- Extend the 16-word message schedule by `n` further words. -/
def sched (w : Array Nat) : Nat → Array Nat
  | 0 => w
  | n + 1 =>
      let s := w.size
      let next := add32 (add32 (ssig1 (w.getD (s - 2) 0)) (w.getD (s - 7) 0))
                        (add32 (ssig0 (w.getD (s - 15) 0)) (w.getD (s - 16) 0))
      sched (w.push next) n

/-- One SHA-256 round. -/
def step (s : Hash8) (kw : Nat × Nat) : Hash8 :=
  let t1 := add32 (add32 (add32 s.h (bsig1 s.e)) (add32 (ch s.e s.f s.g) kw.1)) kw.2
  let t2 := add32 (bsig0 s.a) (maj s.a s.b s.c)
  ⟨add32 t1 t2, s.a, s.b, s.c, add32 s.d t1, s.e, s.f, s.g⟩

/-- Compress one 64-byte block into the running hash state. -/
def compressBlock (hs : Hash8) (block : List Nat) : Hash8 :=
  let w := sched (Array.mk (toWords block)) 48
  let r := (K.zip w.toList).foldl step hs
  ⟨add32 hs.a r.a, add32 hs.b r.b, add32 hs.c r.c, add32 hs.d r.d,
   add32 hs.e r.e, add32 hs.f r.f, add32 hs.g r.g, add32 hs.h r.h⟩

/-- Big-endian byte rendering: the `k` low bytes of `n`, most significant first. -/
def beBytes : Nat → Nat → List Nat
  | 0, _ => []
  | k + 1, n => beBytes k (n >>> 8) ++ [n &&& 0xff]

/-- Split into 64-byte chunks (fuel-driven so it reduces in the kernel). -/
def chunks64 : Nat → List Nat → List (List Nat)
  | _, [] => []
  | 0, _ => []
  | fuel + 1, l => l.take 64 :: chunks64 fuel (l.drop 64)

/-- SHA-256 padding: append `0x80`, zeros, and the 64-bit bit length. -/
def pad (msg : List Nat) : List Nat :=
  let L := msg.length
  msg ++ 0x80 :: List.replicate ((64 + 55 - (L % 64)) % 64) 0 ++ beBytes 8 (8 * L)

/-- SHA-256 of a byte list, as 32 bytes. -/
def sha256 (msg : List Nat) : List Nat :=
  let padded := pad msg
  let final := (chunks64 padded.length padded).foldl compressBlock H0
  beBytes 4 final.a ++ beBytes 4 final.b ++ beBytes 4 final.c ++ beBytes 4 final.d ++
  beBytes 4 final.e ++ beBytes 4 final.f ++ beBytes 4 final.g ++ beBytes 4 final.h

/-- Lowercase hexadecimal digit. -/
def hexDigit (n : Nat) : Char := if n < 10 then Char.ofNat (48 + n) else Char.ofNat (87 + n)

/-- Lowercase hex rendering of a byte list (`hexdigest`). -/
def bytesToHex (bs : List Nat) : String :=
  ⟨bs.foldr (fun b acc => hexDigit (b >>> 4) :: hexDigit (b &&& 0xf) :: acc) []⟩

/-- UTF-8 encoding of one character (`str.encode` with the UTF-8 codec). -/
def utf8Bytes (c : Char) : List Nat :=
  let n := c.toNat
  if n < 0x80 then [n]
  else if n < 0x800 then [0xc0 ||| (n >>> 6), 0x80 ||| (n &&& 0x3f)]
  else if n < 0x10000 then
    [0xe0 ||| (n >>> 12), 0x80 ||| ((n >>> 6) &&& 0x3f), 0x80 ||| (n &&& 0x3f)]
  else
    [0xf0 ||| (n >>> 18), 0x80 ||| ((n >>> 12) &&& 0x3f),
     0x80 ||| ((n >>> 6) &&& 0x3f), 0x80 ||| (n &&& 0x3f)]

/-- UTF-8 encoding of a string. -/
def strBytes (s : String) : List Nat :=
  s.data.foldr (fun c acc => utf8Bytes c ++ acc) []

/-- HMAC-SHA256 (`hmac.new(key, msg, hashlib.sha256).digest()`), RFC 2104
with a 64-byte block: a key longer than one block is first hashed, then
zero-padded; inner/outer pads are `0x36`/`0x5c`. -/
def hmacSha256 (key msg : List Nat) : List Nat :=
  let k0 := if key.length > 64 then sha256 key else key
  let k := k0 ++ List.replicate (64 - k0.length) 0
  let ipad := k.map (fun b => b ^^^ 0x36)
  let opad := k.map (fun b => b ^^^ 0x5c)
  sha256 (opad ++ sha256 (ipad ++ msg))

/-- String form of `hmac.new(key.encode(), msg.encode(), hashlib.sha256).hexdigest()`. -/
def hmacSha256Hex (key msg : String) : String :=
  bytesToHex (hmacSha256 (strBytes key) (strBytes msg))

end AbcCrypto

namespace Abc

/-- Values of the Python objects produced by the host JSON parsers
(`_parse_json` / `js_to_json`): the JSON data model, with objects as
ordered key/value field lists. -/
inductive JVal where
  | null
  | bool (b : Bool)
  | num (n : Int)
  | str (s : String)
  | arr (xs : List JVal)
  | obj (fields : List (String × JVal))

/-- Python exceptions and typed extraction errors that `_real_extract`
can raise.  `extractorError` is `ExtractorError(msg, expected)` raised by
the module itself; `noFormats` is the host `_sort_formats` failure on an
empty list (the spec's NoStreamAvailable); the remaining constructors are
ordinary Python faults (`KeyError`, `AttributeError`, `TypeError`,
`StopIteration`, `UnboundLocalError`). -/
inductive PyErr where
  | keyError (k : String)
  | attributeError
  | typeError
  | stopIteration
  | unboundLocal (n : String)
  | extractorError (msg : String) (expected : Bool)
  | noFormats
deriving DecidableEq

/-- Python subscript `v[k]` on a parsed JSON value: `KeyError` when the
key is missing, `TypeError` when the value is not a dict. -/
def JVal.item : JVal → String → Except PyErr JVal
  | .obj fs, k =>
      match fs.lookup k with
      | some v => .ok v
      | none => .error (.keyError k)
  | _, _ => .error .typeError

/-- Python `v.get(k)` on a parsed JSON value: `None` when missing,
`AttributeError` when the value is not a dict. -/
def JVal.get : JVal → String → Except PyErr (Option JVal)
  | .obj fs, k => .ok (fs.lookup k)
  | _, _ => .error .attributeError

/-- Total variant of `.get` for places where the receiver is already
known to be a dict (a preceding subscript on it succeeded). -/
def JVal.getD : JVal → String → Option JVal
  | .obj fs, k => fs.lookup k
  | _, _ => none

/-- Python truthiness of a parsed JSON value (`if x:`). -/
def truthy : JVal → Bool
  | .null => false
  | .bool b => b
  | .num n => n != 0
  | .str s => s != ""
  | .arr [] => false
  | .arr (_ :: _) => true
  | .obj [] => false
  | .obj (_ :: _) => true

mutual
/-- Python `repr` rendering of a parsed JSON value as interpolated by
`format`: `None`/`True`/`False`, decimal integers, quoted strings,
container reprs. -/
def pyRepr : JVal → String
  | .null => "None"
  | .bool b => cond b "True" "False"
  | .num n => toString n
  | .str s => "\x27" ++ s ++ "\x27"
  | .arr xs => "[" ++ pyReprList xs ++ "]"
  | .obj fs => "\x7b" ++ pyReprFields fs ++ "\x7d"
def pyReprList : List JVal → String
  | [] => ""
  | [v] => pyRepr v
  | v :: vs => pyRepr v ++ ", " ++ pyReprList vs
def pyReprFields : List (String × JVal) → String
  | [] => ""
  | [(k, v)] => "\x27" ++ k ++ "\x27: " ++ pyRepr v
  | (k, v) :: fs => "\x27" ++ k ++ "\x27: " ++ pyRepr v ++ ", " ++ pyReprFields fs
end

/-- Python `format` interpolation (`str`) of an optional field value: a
top-level string renders verbatim (no quotes) and `None` as `None`. -/
def pyStr : Option JVal → String
  | none => "None"
  | some (.str s) => s
  | some v => pyRepr v

/-- Decimal digit run to a number; `none` when empty or non-digit. -/
def digitsVal (cs : List Char) (acc : Nat) : Option Nat :=
  match cs with
  | [] => some acc
  | c :: rest => if c.isDigit then digitsVal rest (10 * acc + (c.toNat - 48)) else none

/-- Python `int(s)` on a string: optional sign followed by decimal digits;
`none` on anything else. -/
def pyParseInt (s : String) : Option Int :=
  match s.data with
  | [] => none
  | '-' :: rest => if rest.isEmpty then none else (digitsVal rest 0).map (fun n => -(n : Int))
  | '+' :: rest => if rest.isEmpty then none else (digitsVal rest 0).map (fun n => (n : Int))
  | l => (digitsVal l 0).map (fun n => (n : Int))

/-- Modelled from the spec: the host utility `int_or_none` — "best-effort
integer-parsed from the corresponding fields (missing/unparsable → null,
never an error)" (spec §4.1 step 5).  Missing and `null` map to `none`,
integers stay, booleans coerce, integer-literal strings parse, anything
else maps to `none`. -/
def int_or_none : Option JVal → Option Int
  | none => none
  | some .null => none
  | some (.num n) => some n
  | some (.bool b) => some (cond b 1 0)
  | some (.str s) => pyParseInt s
  | some _ => none

/-- Left-to-right effectful traversal, as a Python list comprehension
evaluates: the first raised error aborts the whole comprehension. -/
def mapExcept (f : α → Except PyErr β) : List α → Except PyErr (List β)
  | [] => .ok []
  | x :: xs => do
      let y ← f x
      let ys ← mapExcept f xs
      .ok (y :: ys)

/-- Insert into a sorted list by a boolean comparator. -/
def insertLe (le : α → α → Bool) (x : α) : List α → List α
  | [] => [x]
  | y :: ys => if le x y then x :: y :: ys else y :: insertLe le x ys

/-- Sort by a boolean comparator (insertion sort). -/
def sortLe (le : α → α → Bool) : List α → List α
  | [] => []
  | x :: xs => insertLe le x (sortLe le xs)

/-- Modelled from the spec: the host collaborator `_sort_formats` —
"quality-sort(list of MediaFormat) → sorted ... by host-defined quality
ranking" (spec §6), which surfaces an empty format list as the fatal
no-formats condition ("NoStreamAvailable — no playable quality tier
produced any format; fatal for that URL", spec §7, §4.2 step 8).  The
ranking comparator is host-supplied and kept as a parameter. -/
def sortFormats (le : α → α → Bool) (fs : List α) : Except PyErr (List α) :=
  match fs with
  | [] => .error .noFormats
  | _ => .ok (sortLe le fs)

/-! ## `ABCIE` (news-article pages) -/

/-- The kind captured by the `inline(Video|Audio|YouTube)Data.push(...)`
marker pattern. -/
inductive AKind where
  | video
  | audio
  | youtube
deriving DecidableEq

/-- One downloadable variant built by `ABCIE._real_extract` (the dict
literal at lines 85–92): the raw `url` field value, the `vcodec` entry,
and the four host-parsed optional integers. -/
structure AbcFormat where
  url : JVal
  vcodec : Option JVal
  width : Option Int
  height : Option Int
  tbr : Option Int
  filesize : Option Int

/-- The `MediaRecord` assembled by `ABCIE._real_extract` (lines 96–102). -/
structure AbcRecord where
  id : String
  title : String
  formats : List AbcFormat
  description : Option String
  thumbnail : Option String

/-- Result of `ABCIE._real_extract`: either `playlist_result` of the
per-element `url_result` redirects (the `url` field values, in order) or
a media record. -/
inductive AbcResult where
  | playlist (entries : List JVal)
  | media (rec : AbcRecord)

/-- An article page, represented by the results of the host primitives
applied to the downloaded HTML: the inline-data regex search combined
with the loose JSON parse of its captured group (`none` when the marker
pattern does not occur; a parse failure is a fatal host error before the
code modelled here resumes), the expired-banner regex search with
default `None`, and the Open-Graph meta lookups. -/
structure ArticlePage where
  inline : Option (AKind × JVal)
  expired : Option String
  ogTitle : String
  ogDescription : Option String
  ogThumbnail : Option String

/-- The dict literal of lines 85–92, for one `url_info` element: `url` is
the mandatory subscript (`KeyError`/`TypeError` when absent or the
element is not a dict), `vcodec` is the `codec` field for Video and the
literal `"none"` otherwise, and the four numeric entries go through the
host `int_or_none`. -/
def buildFormat (kind : AKind) (urlInfo : JVal) : Except PyErr AbcFormat := do
  let url ← urlInfo.item "url"
  .ok { url := url
        vcodec := if kind = AKind.video then urlInfo.getD "codec" else some (JVal.str "none")
        width := int_or_none (urlInfo.getD "width")
        height := int_or_none (urlInfo.getD "height")
        tbr := int_or_none (urlInfo.getD "bitrate")
        filesize := int_or_none (urlInfo.getD "filesize") }

/-- `IE_NAME` of `ABCIE`. -/
def abcIeName : String := "abc.net.au"

/-- Lines 78–79: `if not isinstance(urls_info, list): urls_info = [urls_info]`. -/
def normList : JVal → List JVal
  | .arr xs => xs
  | v => [v]

/-- `ABCIE._real_extract` (lines 62–102), after the page download: the
inline-data search, the expired-banner fallback, list normalization, the
YouTube redirect branch, and format construction plus the host sort.
The quality comparator `le` is the host collaborator. -/
def ABCIE.realExtract (videoId : String) (page : ArticlePage)
    (le : AbcFormat → AbcFormat → Bool) : Except PyErr AbcResult :=
  match page.inline with
  | none =>
      match page.expired with
      | some e =>
          if e != "" then
            .error (.extractorError (abcIeName ++ " said: " ++ e) true)
          else
            .error (.extractorError "Unable to extract video urls" false)
      | none => .error (.extractorError "Unable to extract video urls" false)
  | some (kind, parsed) =>
      let urlsInfo : List JVal := normList parsed
      if kind = AKind.youtube then do
        let entries ← mapExcept (fun u => u.item "url") urlsInfo
        .ok (.playlist entries)
      else do
        let formats ← mapExcept (buildFormat kind) urlsInfo
        let sorted ← sortFormats le formats
        .ok (.media { id := videoId
                      title := page.ogTitle
                      formats := sorted
                      description := page.ogDescription
                      thumbnail := page.ogThumbnail })

/-! ## `ABCIViewIE` (iview catch-up pages) -/

/-- Modelled from the spec: a `MediaFormat` as produced by the host
adaptive-manifest parser `_extract_m3u8_formats` — "url (string), video
codec (string or none), width/height (nullable integer), bitrate
(nullable integer), filesize (nullable integer)" (spec §3). -/
structure HostFormat where
  url : String
  vcodec : Option String
  width : Option Int
  height : Option Int
  tbr : Option Int
  filesize : Option Int
deriving DecidableEq

/-- One subtitle-file descriptor (the dict with `url` and `ext` entries
built at lines 165–168). -/
structure SubTrack where
  url : JVal
  ext : String

/-- The `MediaRecord` assembled by `ABCIViewIE._real_extract`
(lines 170–184).  Fields whose values come straight from the parsed
configuration keep their raw JSON values. -/
structure IviewRecord where
  id : String
  title : JVal
  description : Option String
  thumbnail : Option String
  duration : Option Int
  timestamp : Option Int
  series : Option JVal
  seriesId : JVal
  episodeNumber : Option Int
  episode : Option String
  uploaderId : Option JVal
  formats : List HostFormat
  subtitles : List (String × List SubTrack)

/-- An iview page, as the results of the host primitives on the HTML:
the parsed `videoParams = {...};` JSON (the regex search and the strict
parse are both fatal host errors upstream of the code modelled here) and
the meta-tag lookups used for the record. -/
structure IviewPage where
  videoParams : JVal
  metaDescription : Option String
  metaThumbnail : Option String
  metaEpisodeNumber : Option String
  metaEpisodeTitle : Option String

/-- The host collaborators of `ABCIViewIE._real_extract`: the token
endpoint (`_download_webpage` of the signed URL, returning the raw token
body), the manifest parser (`_extract_m3u8_formats` with `fatal=False` —
"list of MediaFormat (or empty on failure)", spec §6), the quality
comparator, and the `parse_iso8601` utility. -/
structure IviewHost where
  tokenFor : String → String
  m3u8 : String → List HostFormat
  le : HostFormat → HostFormat → Bool
  parseIso : JVal → Option Int

/-- The fixed shared secret of line 140. -/
def secretKey : String := "android.content.res.Resources"

/-- The signing path of lines 137–138: the template
`/auth/hls/sign?ts={0}&hn={1}&d=android-mobile` formatted with
`int(time.time())` and `house_number`. -/
def signPath (ts : Nat) (houseNumber : Option JVal) : String :=
  "/auth/hls/sign?ts=" ++ toString ts ++ "&hn=" ++ pyStr houseNumber ++ "&d=android-mobile"

/-- The signature of lines 139–141: HMAC-SHA256 of the path keyed by the
fixed secret, as a lowercase hex digest. -/
def sign (path : String) : String := AbcCrypto.hmacSha256Hex secretKey path

/-- The token-request URL of lines 142–143: the template
`http://iview.abc.net.au{0}&sig={1}` formatted with `path` and `sig`. -/
def tokenUrl (path sig : String) : String :=
  "http://iview.abc.net.au" ++ path ++ "&sig=" ++ sig

/-- The full token-request URL as a function of the timestamp and the
configuration's house number. -/
def requestUrl (ts : Nat) (houseNumber : Option JVal) : String :=
  tokenUrl (signPath ts houseNumber) (sign (signPath ts houseNumber))

/-- Modelled from the spec: the host query-injection helper
`update_url_query` with the token under the `hdnea` key — "append the
token as a query parameter (`hdnea=<token>`)" (spec §4.2 step 8, §6). -/
def tokenizeUrl (url token : String) : String :=
  if url.data.contains '?' then url ++ "&hdnea=" ++ token else url ++ "?hdnea=" ++ token

/-- Line 133: `title` is the `title` field of `video_params` when
truthy, or else the mandatory `seriesTitle` subscript (Python `or`
falls through on a falsy value). -/
def iviewTitle (vp : JVal) : Except PyErr JVal := do
  let t ← vp.get "title"
  match t with
  | some v => if truthy v then .ok v else vp.item "seriesTitle"
  | none => vp.item "seriesTitle"

/-- Line 134: the `next` over the generator selecting from the
playlist elements the first dict whose `type` field is the string
`program`; `StopIteration` when the generator is exhausted;
`AttributeError` when an element reached has no `.get`. -/
def selectProgram : List JVal → Except PyErr JVal
  | [] => .error .stopIteration
  | s :: rest => do
      let t ← s.get "type"
      match t with
      | some (.str ty) => if ty = "program" then .ok s else selectProgram rest
      | _ => selectProgram rest

/-- Lines 133–136 before the signing step: the title resolution, the
mandatory `playlist` subscript (`TypeError` when it is not a list), the
program-entry selection, and the `episodeHouseNumber` fetch. -/
def iviewPrelude (vp : JVal) : Except PyErr (JVal × JVal × Option JVal) := do
  let title ← iviewTitle vp
  let playlist ← vp.item "playlist"
  let elems ← match playlist with
    | JVal.arr xs => Except.ok xs
    | _ => Except.error PyErr.typeError
  let stream ← selectProgram elems
  let houseNumber ← vp.get "episodeHouseNumber"
  .ok (title, stream, houseNumber)

/-- The `try_get` of lines 151–152 with the nested
`streams`/`hls`/tier lambda and expected type `compat_str`: the nested
lookup yields the value only when every level succeeds and the result
is a string (any lookup fault is caught and, like a non-string result,
becomes `None`). -/
def tierUrl (stream : JVal) (tier : String) : Option String :=
  match (do
      let a ← stream.item "streams"
      let b ← a.item "hls"
      b.item tier : Except PyErr JVal) with
  | .ok (.str s) => some s
  | _ => none

/-- The tier order of the loop at line 150: `sd` then `sd-low`. -/
def qualityTiers : List String := ["sd", "sd-low"]

/-- The loop body of lines 150–159, threading the Python local `formats`
as an accumulator (`none` = not yet assigned): a tier with a falsy URL
is skipped (`if not sd_url: continue`), a present tier's manifest is
parsed with the token appended, and a non-empty parse breaks out. -/
def tierLoop (host : IviewHost) (stream : JVal) (token : String) :
    List String → Option (List HostFormat) → Option (List HostFormat)
  | [], acc => acc
  | tier :: rest, acc =>
      match tierUrl stream tier with
      | none => tierLoop host stream token rest acc
      | some u =>
          if u = "" then tierLoop host stream token rest acc
          else
            let fs := host.m3u8 (tokenizeUrl u token)
            if fs.isEmpty then tierLoop host stream token rest (some fs) else some fs

/-- The final value of the Python local `formats` after the tier loop
(`none` when no iteration assigned it). -/
def pickFormats (host : IviewHost) (stream : JVal) (token : String) :
    Option (List HostFormat) :=
  tierLoop host stream token qualityTiers none

/-- Lines 162–168: `src_vtt` is the `src-vtt` field of the `captions`
field of the stream (with an empty-dict default for missing captions),
and the subtitle dictionary is built from a truthy value. -/
def iviewSubtitles (stream : JVal) : Except PyErr (List (String × List SubTrack)) := do
  let captions ← stream.get "captions"
  let srcVtt ← match captions with
    | some c => c.get "src-vtt"
    | none => (JVal.obj []).get "src-vtt"
  match srcVtt with
  | some v =>
      if truthy v then .ok [("en", [{ url := v, ext := "vtt" }])] else .ok []
  | none => .ok []

/-- Lines 160–184 of `ABCIViewIE._real_extract`, from the tier loop's
result to the assembled record: `_sort_formats` on the (possibly still
unbound) `formats` local, the subtitles, and the record literal. -/
def finishExtract (videoId : String) (page : IviewPage) (host : IviewHost)
    (title stream : JVal) (token : String) : Except PyErr IviewRecord := do
  let vp := page.videoParams
  let formats ← match pickFormats host stream token with
    | none => Except.error (PyErr.unboundLocal "formats")
    | some fs => sortFormats host.le fs
  let subtitles ← iviewSubtitles stream
  .ok { id := videoId
        title := title
        description := page.metaDescription
        thumbnail := page.metaThumbnail
        duration := int_or_none (vp.getD "eventDuration")
        timestamp := (vp.getD "pubDate").bind host.parseIso
        series := vp.getD "seriesTitle"
        seriesId :=
          match vp.getD "seriesHouseNumber" with
          | some v => if truthy v then v else JVal.str (String.mk (videoId.data.take 7))
          | none => JVal.str (String.mk (videoId.data.take 7))
        episodeNumber := int_or_none (page.metaEpisodeNumber.map JVal.str)
        episode := page.metaEpisodeTitle
        uploaderId := vp.getD "channel"
        formats := formats
        subtitles := subtitles }

/-- `ABCIViewIE._real_extract` (lines 128–184) after the page download:
the prelude, the signed token request (its response body is the token),
then `finishExtract`.  `ts` is `int(time.time())`. -/
def ABCIViewIE.realExtract (videoId : String) (page : IviewPage) (host : IviewHost)
    (ts : Nat) : Except PyErr IviewRecord := do
  let (title, stream, houseNumber) ← iviewPrelude page.videoParams
  let token := host.tokenFor (requestUrl ts houseNumber)
  finishExtract videoId page host title stream token

/-! ## Concrete fixtures (page snapshots and host instantiations used to
evaluate the embedding at specific inputs) -/

/-- A trivial quality comparator. -/
def le0A : AbcFormat → AbcFormat → Bool := fun _ _ => true

/-- A host instantiation with a fixed token response and a manifest
parser returning one format per manifest URL. -/
def host0 : IviewHost :=
  { tokenFor := fun _ => "TOKEN"
    m3u8 := fun u => [{ url := u, vcodec := none, width := none, height := none,
                        tbr := none, filesize := none }]
    le := fun _ _ => true
    parseIso := fun _ => none }

/-- A host instantiation whose manifest parser always fails (returns no
formats, as `fatal=False` parsing does). -/
def hostNoManifest : IviewHost :=
  { tokenFor := fun _ => "TOKEN"
    m3u8 := fun _ => []
    le := fun _ _ => true
    parseIso := fun _ => none }

/-- Article page: no inline data block, expired banner present. -/
def pageExpired : ArticlePage :=
  { inline := none, expired := some "this video has expired",
    ogTitle := "T", ogDescription := none, ogThumbnail := none }

/-- Article page: no inline data block, no expired banner. -/
def pageNoData : ArticlePage :=
  { inline := none, expired := none,
    ogTitle := "T", ogDescription := none, ogThumbnail := none }

/-- Article page with a YouTube inline data block of two elements. -/
def pageYT : ArticlePage :=
  { inline := some (.youtube, .arr
      [.obj [("url", .str "https://youtube.com/watch?v=a1")],
       .obj [("url", .str "https://youtube.com/watch?v=b2")]])
    expired := none, ogTitle := "T", ogDescription := none, ogThumbnail := none }

/-- Article page with a Video inline data block of two elements carrying
assorted width/height/bitrate/filesize values (well-formed, malformed
and missing). -/
def pageVid : ArticlePage :=
  { inline := some (.video, .arr
      [.obj [("url", .str "http://e/v.mp4"), ("codec", .str "h264"),
             ("width", .str "640"), ("height", .num 360), ("bitrate", .str "bogus")],
       .obj [("url", .str "http://e/v2.mp4"), ("filesize", .num 12345)]])
    expired := none, ogTitle := "T", ogDescription := some "D", ogThumbnail := some "P" }

/-- Article page with an Audio inline data block whose single element
has an empty-string `url` field. -/
def pageEmptyUrl : ArticlePage :=
  { inline := some (.audio, .arr [.obj [("url", .str "")]])
    expired := none, ogTitle := "T", ogDescription := none, ogThumbnail := none }

/-- The program playlist entry of the full iview configuration, with
both quality tiers and a caption file. -/
def streamFull : JVal :=
  .obj [("type", .str "program"),
        ("streams", .obj [("hls", .obj
          [("sd", .str "http://e/sd.m3u8"), ("sd-low", .str "http://e/low.m3u8")])]),
        ("captions", .obj [("src-vtt", .str "http://e/c.vtt")])]

/-- A full iview `videoParams` configuration. -/
def vpFull : JVal :=
  .obj [("title", .str "Series 5 Ep 3"),
        ("playlist", .arr [.obj [("type", .str "trailer")], streamFull]),
        ("episodeHouseNumber", .str "ZW0898A003S00"),
        ("eventDuration", .num 3000),
        ("seriesTitle", .str "Call the Midwife"),
        ("channel", .str "abc1")]

/-- An iview configuration without an `episodeHouseNumber` field. -/
def vpNoHn : JVal :=
  .obj [("title", .str "Ep"),
        ("playlist", .arr [streamFull])]

/-- An iview configuration whose program entry has no stream URLs at
all. -/
def vpNoStreams : JVal :=
  .obj [("title", .str "Ep"),
        ("playlist", .arr [.obj [("type", .str "program")]])]

/-- An iview configuration whose playlist has no entry of type
`program`. -/
def vpNoProgram : JVal :=
  .obj [("title", .str "Ep"),
        ("playlist", .arr [.obj [("type", .str "trailer")],
                           .obj [("type", .str "livestream")]])]

/-- Wrap a configuration as an iview page snapshot. -/
def mkIviewPage (vp : JVal) : IviewPage :=
  { videoParams := vp, metaDescription := some "D", metaThumbnail := some "P",
    metaEpisodeNumber := some "3", metaEpisodeTitle := some "Ep 3" }

/-- The format built from the first `pageVid` element. -/
def fmtV1 : AbcFormat :=
  { url := .str "http://e/v.mp4", vcodec := some (.str "h264"),
    width := some 640, height := some 360, tbr := none, filesize := none }

/-- The format built from the second `pageVid` element. -/
def fmtV2 : AbcFormat :=
  { url := .str "http://e/v2.mp4", vcodec := none,
    width := none, height := none, tbr := none, filesize := some 12345 }

/-- The record extracted from `pageVid`. -/
def recVid : AbcRecord :=
  { id := "5", title := "T", formats := [fmtV1, fmtV2],
    description := some "D", thumbnail := some "P" }

/-- The host format for the tokenized sd-tier manifest of `streamFull`. -/
def fmtSd : HostFormat :=
  { url := "http://e/sd.m3u8?hdnea=TOKEN", vcodec := none,
    width := none, height := none, tbr := none, filesize := none }

/-- The record extracted from `vpFull` with `host0`. -/
def recFull : IviewRecord :=
  { id := "ZW0898A003S00", title := .str "Series 5 Ep 3",
    description := some "D", thumbnail := some "P",
    duration := some 3000, timestamp := none,
    series := some (.str "Call the Midwife"), seriesId := .str "ZW0898A",
    episodeNumber := some 3, episode := some "Ep 3",
    uploaderId := some (.str "abc1"),
    formats := [fmtSd],
    subtitles := [("en", [{ url := .str "http://e/c.vtt", ext := "vtt" }])] }

/-! ## Helper lemmas -/

@[simp] theorem ok_bind {α β : Type} (a : α) (f : α → Except PyErr β) :
    (Except.ok a >>= f) = f a := rfl

@[simp] theorem error_bind {α β : Type} (e : PyErr) (f : α → Except PyErr β) :
    ((Except.error e : Except PyErr α) >>= f) = .error e := rfl

theorem mapExcept_ok_length {α β : Type} {f : α → Except PyErr β} :
    ∀ {l : List α} {l' : List β}, mapExcept f l = .ok l' → l'.length = l.length := by
  intro l
  induction l with
  | nil =>
      intro l' h
      simp only [mapExcept] at h
      cases h
      rfl
  | cons x xs ih =>
      intro l' h
      simp only [mapExcept] at h
      cases hf : f x with
      | error e => rw [hf] at h; simp at h
      | ok y =>
          rw [hf] at h
          cases hm : mapExcept f xs with
          | error e => rw [hm] at h; simp at h
          | ok ys =>
              rw [hm] at h
              simp only [ok_bind] at h
              cases h
              simp [ih hm]

theorem mapExcept_ok_get {α β : Type} {f : α → Except PyErr β} :
    ∀ {l : List α} {l' : List β}, mapExcept f l = .ok l' →
      ∀ (i : Nat) (h1 : i < l.length) (h2 : i < l'.length),
        f (l.get ⟨i, h1⟩) = .ok (l'.get ⟨i, h2⟩) := by
  intro l
  induction l with
  | nil => intro l' h i h1 h2; simp at h1
  | cons x xs ih =>
      intro l' h i h1 h2
      simp only [mapExcept] at h
      cases hf : f x with
      | error e => rw [hf] at h; simp at h
      | ok y =>
          rw [hf] at h
          cases hm : mapExcept f xs with
          | error e => rw [hm] at h; simp at h
          | ok ys =>
              rw [hm] at h
              simp only [ok_bind] at h
              cases h
              cases i with
              | zero => simpa using hf
              | succ j =>
                  exact ih hm j (Nat.lt_of_succ_lt_succ h1) (Nat.lt_of_succ_lt_succ h2)

theorem mapExcept_ok_mem {α β : Type} {f : α → Except PyErr β} :
    ∀ {l : List α} {l' : List β}, mapExcept f l = .ok l' →
      ∀ y ∈ l', ∃ x ∈ l, f x = .ok y := by
  intro l
  induction l with
  | nil =>
      intro l' h y hy
      simp only [mapExcept] at h
      cases h
      simp at hy
  | cons x xs ih =>
      intro l' h y hy
      simp only [mapExcept] at h
      cases hf : f x with
      | error e => rw [hf] at h; simp at h
      | ok z =>
          rw [hf] at h
          cases hm : mapExcept f xs with
          | error e => rw [hm] at h; simp at h
          | ok ys =>
              rw [hm] at h
              simp only [ok_bind] at h
              cases h
              rcases List.mem_cons.mp hy with hz | hmem
              · exact ⟨x, List.mem_cons_self x xs, hz ▸ hf⟩
              · obtain ⟨w, hw, hfw⟩ := ih hm y hmem
                exact ⟨w, List.mem_cons_of_mem x hw, hfw⟩

theorem insertLe_perm {α : Type} (le : α → α → Bool) (x : α) :
    ∀ l : List α, List.Perm (insertLe le x l) (x :: l) := by
  intro l
  induction l with
  | nil => simp [insertLe]
  | cons y ys ih =>
      simp only [insertLe]
      by_cases h : le x y
      · rw [if_pos h]
      · rw [if_neg h]
        exact (ih.cons y).trans (List.Perm.swap x y ys)

theorem sortLe_perm {α : Type} (le : α → α → Bool) :
    ∀ l : List α, List.Perm (sortLe le l) l := by
  intro l
  induction l with
  | nil => simp [sortLe]
  | cons x xs ih => exact (insertLe_perm le x (sortLe le xs)).trans (ih.cons x)

theorem sortFormats_ok_perm {α : Type} {le : α → α → Bool} {fs gs : List α}
    (h : sortFormats le fs = .ok gs) : List.Perm gs fs := by
  cases fs with
  | nil => simp [sortFormats] at h
  | cons x xs =>
      simp only [sortFormats] at h
      cases h
      exact sortLe_perm le (x :: xs)

theorem sortFormats_ok_ne_nil {α : Type} {le : α → α → Bool} {fs gs : List α}
    (h : sortFormats le fs = .ok gs) : fs ≠ [] ∧ gs ≠ [] := by
  refine ⟨?_, ?_⟩
  · intro hfs
    subst hfs
    simp [sortFormats] at h
  · intro hgs
    have hp := sortFormats_ok_perm h
    rw [hgs] at hp
    have := hp.length_eq
    cases fs with
    | nil => simp [sortFormats] at h
    | cons x xs => simp at this

theorem sortFormats_ok_eq {α : Type} {le : α → α → Bool} {fs gs : List α}
    (h : sortFormats le fs = .ok gs) : gs = sortLe le fs := by
  cases fs with
  | nil => simp [sortFormats] at h
  | cons x xs =>
      simp only [sortFormats, Except.ok.injEq] at h
      exact h.symm

theorem sortLe_ne_nil {α : Type} {le : α → α → Bool} {fs : List α}
    (h : fs ≠ []) : sortLe le fs ≠ [] := by
  intro hnil
  have hl := (sortLe_perm le fs).length_eq
  rw [hnil] at hl
  cases fs with
  | nil => exact h rfl
  | cons a as => simp at hl

theorem buildFormat_ok_of_item {kind : AKind} {u : JVal} {w : JVal}
    (h : u.item "url" = .ok w) :
    buildFormat kind u = .ok
      { url := w
        vcodec := if kind = AKind.video then u.getD "codec" else some (JVal.str "none")
        width := int_or_none (u.getD "width")
        height := int_or_none (u.getD "height")
        tbr := int_or_none (u.getD "bitrate")
        filesize := int_or_none (u.getD "filesize") } := by
  simp [buildFormat, h]

theorem buildFormat_error_item {kind : AKind} {u : JVal} {e : PyErr}
    (h : buildFormat kind u = .error e) : u.item "url" = .error e := by
  cases hi : u.item "url" with
  | error e2 =>
      simp only [buildFormat, hi, error_bind, Except.error.injEq] at h
      rw [h]
  | ok w => simp [buildFormat, hi] at h

theorem buildFormat_ok_url {kind : AKind} {u : JVal} {f : AbcFormat}
    (h : buildFormat kind u = .ok f) : u.item "url" = .ok f.url := by
  cases hi : u.item "url" with
  | error e => simp [buildFormat, hi] at h
  | ok w =>
      simp only [buildFormat, hi, ok_bind, Except.ok.injEq] at h
      subst h
      rfl

theorem tierLoop_some {host : IviewHost} {stream : JVal} {token : String} :
    ∀ (tiers : List String) (acc : Option (List HostFormat)) {fs : List HostFormat},
      (acc = none ∨ ∃ u, acc = some (host.m3u8 u)) →
      tierLoop host stream token tiers acc = some fs →
      ∃ u, fs = host.m3u8 u := by
  intro tiers
  induction tiers with
  | nil =>
      intro acc fs hinv h
      simp only [tierLoop] at h
      rcases hinv with h0 | ⟨u, hu⟩
      · rw [h0] at h; cases h
      · rw [hu] at h; cases h; exact ⟨u, rfl⟩
  | cons t rest ih =>
      intro acc fs hinv h
      cases htu : tierUrl stream t with
      | none =>
          simp only [tierLoop, htu] at h
          exact ih acc hinv h
      | some u =>
          simp only [tierLoop, htu] at h
          split at h
          · exact ih acc hinv h
          · split at h
            · exact ih _ (Or.inr ⟨tokenizeUrl u token, rfl⟩) h
            · cases h
              exact ⟨tokenizeUrl u token, rfl⟩

theorem abc_media_destruct {videoId : String} {page : ArticlePage}
    {le : AbcFormat → AbcFormat → Bool} {rec : AbcRecord}
    (h : ABCIE.realExtract videoId page le = .ok (.media rec)) :
    ∃ kind parsed fmts,
      page.inline = some (kind, parsed) ∧ kind ≠ AKind.youtube ∧
      mapExcept (buildFormat kind) (normList parsed) = .ok fmts ∧
      fmts ≠ [] ∧ rec.formats = sortLe le fmts := by
  cases hinl : page.inline with
  | none =>
      simp only [ABCIE.realExtract, hinl] at h
      cases hexp : page.expired with
      | none => rw [hexp] at h; simp at h
      | some e =>
          simp only [hexp] at h
          split at h <;> simp at h
  | some pr =>
      obtain ⟨kind, parsed⟩ := pr
      simp only [ABCIE.realExtract, hinl] at h
      by_cases hk : kind = AKind.youtube
      · rw [if_pos hk] at h
        cases hm : mapExcept (fun u => u.item "url") (normList parsed) with
        | error e => rw [hm] at h; simp at h
        | ok es => rw [hm] at h; simp at h
      · rw [if_neg hk] at h
        cases hm : mapExcept (buildFormat kind) (normList parsed) with
        | error e => rw [hm] at h; simp at h
        | ok fmts =>
            rw [hm] at h
            simp only [ok_bind] at h
            cases hs : sortFormats le fmts with
            | error e => rw [hs] at h; simp at h
            | ok gs =>
                rw [hs] at h
                simp only [ok_bind, Except.ok.injEq, AbcResult.media.injEq] at h
                subst h
                exact ⟨kind, parsed, fmts, rfl, hk, hm,
                  (sortFormats_ok_ne_nil hs).1, sortFormats_ok_eq hs⟩

theorem iview_ok_destruct {videoId : String} {page : IviewPage} {host : IviewHost}
    {ts : Nat} {rec : IviewRecord}
    (h : ABCIViewIE.realExtract videoId page host ts = .ok rec) :
    ∃ title stream hn fs,
      iviewPrelude page.videoParams = .ok (title, stream, hn) ∧
      pickFormats host stream (host.tokenFor (requestUrl ts hn)) = some fs ∧
      fs ≠ [] ∧ rec.formats = sortLe host.le fs := by
  unfold ABCIViewIE.realExtract at h
  cases hp : iviewPrelude page.videoParams with
  | error e => rw [hp] at h; simp at h
  | ok tri =>
      obtain ⟨title, stream, hn⟩ := tri
      rw [hp] at h
      simp only [ok_bind] at h
      unfold finishExtract at h
      cases hpick : pickFormats host stream (host.tokenFor (requestUrl ts hn)) with
      | none => rw [hpick] at h; simp at h
      | some fs =>
          rw [hpick] at h
          cases fs with
          | nil => simp [sortFormats] at h
          | cons f fs' =>
              simp only [sortFormats, ok_bind] at h
              cases hsub : iviewSubtitles stream with
              | error e => rw [hsub] at h; simp at h
              | ok subs =>
                  rw [hsub] at h
                  simp only [ok_bind, Except.ok.injEq] at h
                  subst h
                  exact ⟨title, stream, hn, f :: fs', rfl, hpick, by simp, rfl⟩

/-! ## Claim theorems -/

/-- C1: For every catch-up page, the authentication signature computed by
the catch-up extractor equals HMAC-SHA256 of the path string
`/auth/hls/sign?ts=<unix-timestamp>&hn=<episode-house-number>&d=android-mobile`,
keyed by the fixed secret string `android.content.res.Resources`,
rendered as lowercase hexadecimal; it is a deterministic function of the
path alone, and it matches a reference vector at a fixed timestamp and
house number. -/
theorem c1_signature_scheme :
    (∀ path : String, sign path = AbcCrypto.hmacSha256Hex secretKey path)
    ∧ secretKey = "android.content.res.Resources"
    ∧ (∀ (ts : Nat) (hn : String), signPath ts (some (JVal.str hn))
        = "/auth/hls/sign?ts=" ++ toString ts ++ "&hn=" ++ hn ++ "&d=android-mobile")
    ∧ (∀ (ts : Nat) (hn : Option JVal), requestUrl ts hn
        = "http://iview.abc.net.au" ++ signPath ts hn ++ "&sig=" ++ sign (signPath ts hn))
    ∧ sign "/auth/hls/sign?ts=1514499187&hn=ZW0898A003S00&d=android-mobile"
        = "7678c12bf5fe5e652ba34ffb42dbd56874cfc563b8b7fd470b50a23a6a2d0b17" :=
  ⟨fun _ => rfl, rfl, fun _ _ => rfl, fun _ _ => rfl,
   by set_option maxRecDepth 100000 in decide⟩

/-- C2: The quality-tier loop tries `sd` then `sd-low` in that order: a
tier whose `streams.hls` URL is absent (or falsy) is skipped, a present
tier's manifest is parsed, and the loop stops at the first tier yielding
at least one format; if `sd` is absent or yields zero formats, `sd-low`
is attempted. -/
theorem c2_tier_fallback :
    ∀ (host : IviewHost) (stream : JVal) (token : String),
      qualityTiers = ["sd", "sd-low"]
      ∧ (∀ u, tierUrl stream "sd" = some u → u ≠ "" →
          host.m3u8 (tokenizeUrl u token) ≠ [] →
          pickFormats host stream token = some (host.m3u8 (tokenizeUrl u token)))
      ∧ (∀ v, (tierUrl stream "sd" = none ∨ tierUrl stream "sd" = some "") →
          tierUrl stream "sd-low" = some v → v ≠ "" →
          pickFormats host stream token = some (host.m3u8 (tokenizeUrl v token)))
      ∧ (∀ u v, tierUrl stream "sd" = some u → u ≠ "" →
          host.m3u8 (tokenizeUrl u token) = [] →
          tierUrl stream "sd-low" = some v → v ≠ "" →
          pickFormats host stream token = some (host.m3u8 (tokenizeUrl v token))) := by
  intro host stream token
  refine ⟨rfl, ?_, ?_, ?_⟩
  · intro u hu hne hfs
    cases hm : host.m3u8 (tokenizeUrl u token) with
    | nil => exact absurd hm hfs
    | cons f fs => simp [pickFormats, qualityTiers, tierLoop, hu, hne, hm]
  · intro v hsd hv hne
    cases hm : host.m3u8 (tokenizeUrl v token) with
    | nil =>
        rcases hsd with hsd | hsd <;>
          simp [pickFormats, qualityTiers, tierLoop, hsd, hv, hne, hm]
    | cons f fs =>
        rcases hsd with hsd | hsd <;>
          simp [pickFormats, qualityTiers, tierLoop, hsd, hv, hne, hm]
  · intro u v hu hune hm0 hv hvne
    cases hm : host.m3u8 (tokenizeUrl v token) with
    | nil => simp [pickFormats, qualityTiers, tierLoop, hu, hune, hm0, hv, hvne, hm]
    | cons f fs => simp [pickFormats, qualityTiers, tierLoop, hu, hune, hm0, hv, hvne, hm]

/-- Witness for C2 on the concrete `streamFull` configuration: the `sd`
tier is picked when present and non-empty; `sd-low` is picked when the
`sd` parse yields zero formats (using a host whose parser fails only on
the `sd` manifest). -/
theorem c2_tier_fallback_witness :
    pickFormats host0 streamFull "TOKEN"
      = some (host0.m3u8 (tokenizeUrl "http://e/sd.m3u8" "TOKEN")) :=
  ((c2_tier_fallback host0 streamFull "TOKEN").2.1 "http://e/sd.m3u8" rfl
    (by decide) (by intro h; simp [host0] at h))

/-- C4 (code bug): with no `program`-typed playlist entry the selection
of line 134 raises a bare `StopIteration` which `_real_extract`
propagates — not an `ExtractorError` of any message — while the first
`program`-typed entry is selected when one exists. -/
theorem c4_program_selection :
    selectProgram [JVal.obj [("type", JVal.str "trailer")],
                   JVal.obj [("type", JVal.str "livestream")]] = .error .stopIteration
    ∧ ABCIViewIE.realExtract "ZX9999A001S00" (mkIviewPage vpNoProgram) host0 0
        = .error .stopIteration
    ∧ (∀ (m : String) (b : Bool), (PyErr.stopIteration : PyErr) ≠ .extractorError m b)
    ∧ selectProgram [JVal.obj [("type", JVal.str "trailer")], streamFull,
                     JVal.obj [("type", JVal.str "program"), ("extra", JVal.null)]]
        = .ok streamFull :=
  ⟨rfl, rfl, fun _ _ h => PyErr.noConfusion h, rfl⟩

/-- C5: On an article page with no inline data block, a non-empty
expired banner yields an expected (`expected=True`) `ExtractorError`
carrying the banner text verbatim after `<IE_NAME> said: `; with no
banner the failure is the generic unexpected `ExtractorError`. -/
theorem c5_expired_banner :
    ∀ (videoId : String) (page : ArticlePage) (le : AbcFormat → AbcFormat → Bool)
      (e : String),
      page.inline = none →
      (page.expired = some e → e ≠ "" →
        ABCIE.realExtract videoId page le
          = .error (.extractorError (abcIeName ++ " said: " ++ e) true))
      ∧ (page.expired = none →
        ABCIE.realExtract videoId page le
          = .error (.extractorError "Unable to extract video urls" false)) := by
  intro videoId page le e hinline
  constructor
  · intro hexp hne
    simp [ABCIE.realExtract, hinline, hexp, hne]
  · intro hexp
    simp [ABCIE.realExtract, hinline, hexp]

/-- Witness for C5 at concrete article pages with and without an expired
banner. -/
theorem c5_expired_banner_witness :
    ABCIE.realExtract "5868334" pageExpired le0A
      = .error (.extractorError "abc.net.au said: this video has expired" true)
    ∧ ABCIE.realExtract "5868334" pageNoData le0A
      = .error (.extractorError "Unable to extract video urls" false) :=
  ⟨(c5_expired_banner "5868334" pageExpired le0A "this video has expired" rfl).1 rfl
      (by decide),
   (c5_expired_banner "5868334" pageNoData le0A "" rfl).2 rfl⟩

/-- C3 counterexample: on a configuration whose program entry has no
tier URL at all, extraction fails with the unbound-local fault of the
never-assigned `formats` variable, which is not the no-formats
(NoStreamAvailable) error. -/
theorem c3_counterexample :
    ABCIViewIE.realExtract "ZX1" (mkIviewPage vpNoStreams) host0 0
      = .error (.unboundLocal "formats")
    ∧ PyErr.unboundLocal "formats" ≠ PyErr.noFormats :=
  ⟨rfl, fun h => PyErr.noConfusion h⟩

/-- C3 (amended): when the tier loop ends with zero formats the
extraction fails — with the no-formats error when some tier was
attempted (`formats` ended as the empty list), and with an
unbound-local fault when no tier URL was usable at all — and a returned
record always has a non-empty formats list. -/
theorem c3_no_stream_failure :
    (∀ (videoId : String) (page : IviewPage) (host : IviewHost) (ts : Nat)
       (title stream : JVal) (hn : Option JVal),
       iviewPrelude page.videoParams = .ok (title, stream, hn) →
       (pickFormats host stream (host.tokenFor (requestUrl ts hn)) = some [] →
          ABCIViewIE.realExtract videoId page host ts = .error .noFormats)
       ∧ (pickFormats host stream (host.tokenFor (requestUrl ts hn)) = none →
          ABCIViewIE.realExtract videoId page host ts = .error (.unboundLocal "formats")))
    ∧ (∀ (videoId : String) (page : IviewPage) (host : IviewHost) (ts : Nat)
         (rec : IviewRecord),
         ABCIViewIE.realExtract videoId page host ts = .ok rec → rec.formats ≠ []) := by
  constructor
  · intro videoId page host ts title stream hn hp
    constructor
    · intro hpick
      simp [ABCIViewIE.realExtract, hp, finishExtract, hpick, sortFormats]
    · intro hpick
      simp [ABCIViewIE.realExtract, hp, finishExtract, hpick]
  · intro videoId page host ts rec hex
    obtain ⟨t, s, hn, fs, _, _, hfs, hrf⟩ := iview_ok_destruct hex
    rw [hrf]
    exact sortLe_ne_nil hfs

/-- Witness for C3: a host whose manifest parser yields no formats gives
the no-formats error on the full configuration, and a configuration
without tier URLs gives the unbound-local fault. -/
theorem c3_no_stream_failure_witness :
    ABCIViewIE.realExtract "ZW0898A003S00" (mkIviewPage vpFull) hostNoManifest 3
      = .error .noFormats
    ∧ ABCIViewIE.realExtract "ZW0898A003S00" (mkIviewPage vpNoStreams) host0 3
      = .error (.unboundLocal "formats") :=
  ⟨(c3_no_stream_failure.1 "ZW0898A003S00" (mkIviewPage vpFull) hostNoManifest 3
      (JVal.str "Series 5 Ep 3") streamFull (some (JVal.str "ZW0898A003S00")) rfl).1 rfl,
   (c3_no_stream_failure.1 "ZW0898A003S00" (mkIviewPage vpNoStreams) host0 3
      (JVal.str "Ep") (JVal.obj [("type", JVal.str "program")]) none rfl).2 rfl⟩

/-- C6 counterexample: an article page whose single Audio element has an
empty-string `url` field produces a returned MediaRecord containing a
MediaFormat whose url is the empty string. -/
theorem c6_counterexample :
    ABCIE.realExtract "1" pageEmptyUrl le0A
      = .ok (.media { id := "1", title := "T",
                      formats := [{ url := JVal.str "", vcodec := some (JVal.str "none"),
                                    width := none, height := none,
                                    tbr := none, filesize := none }],
                      description := none, thumbnail := none }) := rfl

/-- C6 (amended): a returned article MediaRecord has a non-empty formats
list and each format's url is exactly some element's `url` field value —
hence non-empty whenever every element's url value is non-empty — and a
returned catch-up MediaRecord has a non-empty formats list whose every
format comes from the host manifest parser's output. -/
theorem c6_url_invariant :
    (∀ (videoId : String) (page : ArticlePage) (le : AbcFormat → AbcFormat → Bool)
       (rec : AbcRecord),
       ABCIE.realExtract videoId page le = .ok (.media rec) → rec.formats ≠ [])
    ∧ (∀ (videoId : String) (page : ArticlePage) (le : AbcFormat → AbcFormat → Bool)
         (kind : AKind) (urls : List JVal) (rec : AbcRecord),
         page.inline = some (kind, JVal.arr urls) →
         ABCIE.realExtract videoId page le = .ok (.media rec) →
         ∀ f ∈ rec.formats, ∃ u ∈ urls, u.item "url" = .ok f.url)
    ∧ (∀ (videoId : String) (page : ArticlePage) (le : AbcFormat → AbcFormat → Bool)
         (kind : AKind) (urls : List JVal) (rec : AbcRecord),
         page.inline = some (kind, JVal.arr urls) →
         (∀ u ∈ urls, ∀ v, u.item "url" = .ok v → v ≠ JVal.str "") →
         ABCIE.realExtract videoId page le = .ok (.media rec) →
         ∀ f ∈ rec.formats, f.url ≠ JVal.str "")
    ∧ (∀ (videoId : String) (page : IviewPage) (host : IviewHost) (ts : Nat)
         (rec : IviewRecord),
         ABCIViewIE.realExtract videoId page host ts = .ok rec →
         rec.formats ≠ [] ∧ ∀ f ∈ rec.formats, ∃ url, f ∈ host.m3u8 url) := by
  have habc : ∀ (videoId : String) (page : ArticlePage)
      (le : AbcFormat → AbcFormat → Bool) (kind : AKind) (urls : List JVal)
      (rec : AbcRecord),
      page.inline = some (kind, JVal.arr urls) →
      ABCIE.realExtract videoId page le = .ok (.media rec) →
      ∀ f ∈ rec.formats, ∃ u ∈ urls, u.item "url" = .ok f.url := by
    intro videoId page le kind urls rec hinl hex f hf
    obtain ⟨kind2, parsed2, fmts, hinl2, _, hmap, _, hrf⟩ := abc_media_destruct hex
    rw [hinl] at hinl2
    have h2 := Option.some.inj hinl2
    have hp3 : JVal.arr urls = parsed2 := congrArg Prod.snd h2
    subst hp3
    rw [show normList (JVal.arr urls) = urls from rfl] at hmap
    rw [hrf] at hf
    have hf2 : f ∈ fmts := ((sortLe_perm le fmts).mem_iff).mp hf
    obtain ⟨u, hu, hbf⟩ := mapExcept_ok_mem hmap f hf2
    have hk3 : kind = kind2 := congrArg Prod.fst h2
    subst hk3
    exact ⟨u, hu, buildFormat_ok_url hbf⟩
  refine ⟨?_, habc, ?_, ?_⟩
  · intro videoId page le rec hex
    obtain ⟨_, _, fmts, _, _, _, hne, hrf⟩ := abc_media_destruct hex
    rw [hrf]
    exact sortLe_ne_nil hne
  · intro videoId page le kind urls rec hinl hall hex f hf
    obtain ⟨u, hu, hitem⟩ := habc videoId page le kind urls rec hinl hex f hf
    exact hall u hu f.url hitem
  · intro videoId page host ts rec hex
    obtain ⟨t, s, hn, fs, _, hpick, hne, hrf⟩ := iview_ok_destruct hex
    obtain ⟨u, hfs⟩ := tierLoop_some qualityTiers none (Or.inl rfl) hpick
    constructor
    · rw [hrf]
      exact sortLe_ne_nil hne
    · intro f hf
      rw [hrf] at hf
      have hmem : f ∈ fs := ((sortLe_perm host.le fs).mem_iff).mp hf
      exact ⟨u, hfs ▸ hmem⟩

/-- Witness for C6 (amended) on the concrete Video article page and the
full catch-up configuration. -/
theorem c6_url_invariant_witness :
    recVid.formats ≠ [] ∧ recFull.formats ≠ [] :=
  ⟨c6_url_invariant.1 "5" pageVid le0A recVid rfl,
   (c6_url_invariant.2.2.2 "ZW0898A003S00" (mkIviewPage vpFull) host0 1514499187
      recFull rfl).1⟩

/-- C7: On an article page with a YouTube inline data block, the result
is a playlist of exactly one redirect entry per embedded list element —
each taken from the element's `url` field, in the same order. -/
theorem c7_youtube_playlist :
    ∀ (videoId : String) (page : ArticlePage) (le : AbcFormat → AbcFormat → Bool)
      (urls entries : List JVal),
      page.inline = some (AKind.youtube, JVal.arr urls) →
      mapExcept (fun u => u.item "url") urls = .ok entries →
      ABCIE.realExtract videoId page le = .ok (.playlist entries)
      ∧ entries.length = urls.length
      ∧ (∀ (i : Nat) (h1 : i < urls.length) (h2 : i < entries.length),
          (urls.get ⟨i, h1⟩).item "url" = .ok (entries.get ⟨i, h2⟩)) := by
  intro videoId page le urls entries hinl hmap
  refine ⟨?_, mapExcept_ok_length hmap, fun i h1 h2 => mapExcept_ok_get hmap i h1 h2⟩
  simp [ABCIE.realExtract, hinl, normList, hmap]

/-- Witness for C7 at the concrete two-element YouTube page. -/
theorem c7_youtube_playlist_witness :
    ABCIE.realExtract "6702326" pageYT le0A
      = .ok (.playlist [JVal.str "https://youtube.com/watch?v=a1",
                        JVal.str "https://youtube.com/watch?v=b2"]) :=
  (c7_youtube_playlist "6702326" pageYT le0A
     [JVal.obj [("url", JVal.str "https://youtube.com/watch?v=a1")],
      JVal.obj [("url", JVal.str "https://youtube.com/watch?v=b2")]]
     [JVal.str "https://youtube.com/watch?v=a1", JVal.str "https://youtube.com/watch?v=b2"]
     rfl rfl).1

/-- C8: One MediaFormat is built per parsed list element; `vcodec` is
the element's `codec` field for Video and the literal `"none"`
otherwise; width/height/bitrate/filesize go through the total
`int_or_none` (missing or unparsable becomes null, never an error — the
only failure source of a format is a missing `url`). -/
theorem c8_format_fields :
    (∀ (kind : AKind) (u w : JVal), u.item "url" = .ok w →
       buildFormat kind u = .ok
         { url := w
           vcodec := if kind = AKind.video then u.getD "codec" else some (JVal.str "none")
           width := int_or_none (u.getD "width")
           height := int_or_none (u.getD "height")
           tbr := int_or_none (u.getD "bitrate")
           filesize := int_or_none (u.getD "filesize") })
    ∧ (∀ (kind : AKind) (u : JVal) (e : PyErr), buildFormat kind u = .error e →
         u.item "url" = .error e)
    ∧ (∀ (videoId : String) (page : ArticlePage) (le : AbcFormat → AbcFormat → Bool)
         (kind : AKind) (urls : List JVal) (fmts : List AbcFormat) (rec : AbcRecord),
         kind ≠ AKind.youtube →
         page.inline = some (kind, JVal.arr urls) →
         mapExcept (buildFormat kind) urls = .ok fmts →
         ABCIE.realExtract videoId page le = .ok (.media rec) →
         List.Perm rec.formats fmts ∧ fmts.length = urls.length) := by
  refine ⟨fun kind u w h => buildFormat_ok_of_item h,
          fun kind u e h => buildFormat_error_item h, ?_⟩
  intro videoId page le kind urls fmts rec hk hinl hmap hex
  refine ⟨?_, mapExcept_ok_length hmap⟩
  obtain ⟨kind2, parsed2, fmts2, hinl2, _, hmap2, _, hrf⟩ := abc_media_destruct hex
  rw [hinl] at hinl2
  have h2 := Option.some.inj hinl2
  have hp3 : JVal.arr urls = parsed2 := congrArg Prod.snd h2
  subst hp3
  have hk3 : kind = kind2 := congrArg Prod.fst h2
  subst hk3
  rw [show normList (JVal.arr urls) = urls from rfl] at hmap2
  rw [hmap] at hmap2
  have hf : fmts2 = fmts := (Except.ok.inj hmap2).symm
  rw [hrf, hf]
  exact sortLe_perm le fmts

/-- Witness for C8 at the concrete Video page with well-formed,
malformed and missing numeric fields. -/
theorem c8_format_fields_witness :
    buildFormat AKind.video (JVal.obj [("url", JVal.str "http://e/v.mp4"),
        ("codec", JVal.str "h264"), ("width", JVal.str "640"),
        ("height", JVal.num 360), ("bitrate", JVal.str "bogus")]) = .ok fmtV1
    ∧ List.Perm recVid.formats [fmtV1, fmtV2]
    ∧ ([fmtV1, fmtV2] : List AbcFormat).length
        = [JVal.obj [("url", JVal.str "http://e/v.mp4"), ("codec", JVal.str "h264"),
                     ("width", JVal.str "640"), ("height", JVal.num 360),
                     ("bitrate", JVal.str "bogus")],
           JVal.obj [("url", JVal.str "http://e/v2.mp4"),
                     ("filesize", JVal.num 12345)]].length :=
  ⟨c8_format_fields.1 AKind.video _ (JVal.str "http://e/v.mp4") rfl,
   (c8_format_fields.2.2 "5" pageVid le0A AKind.video _ [fmtV1, fmtV2] recVid
      (fun h => AKind.noConfusion h) rfl rfl rfl).1,
   (c8_format_fields.2.2 "5" pageVid le0A AKind.video _ [fmtV1, fmtV2] recVid
      (fun h => AKind.noConfusion h) rfl rfl rfl).2⟩

/-- C9: Extraction is deterministic on a fixed snapshot — the article
extractor is a pure function of its inputs, and with fixed token and
manifest responses the catch-up extractor's output does not depend on
the embedded unix timestamp. -/
theorem c9_idempotence :
    (∀ (videoId : String) (page : ArticlePage) (le : AbcFormat → AbcFormat → Bool),
       ABCIE.realExtract videoId page le = ABCIE.realExtract videoId page le)
    ∧ (∀ (videoId : String) (page : IviewPage) (host : IviewHost) (ts1 ts2 : Nat),
       (∀ u v : String, host.tokenFor u = host.tokenFor v) →
       ABCIViewIE.realExtract videoId page host ts1
         = ABCIViewIE.realExtract videoId page host ts2) := by
  constructor
  · intro _ _ _
    rfl
  · intro videoId page host ts1 ts2 htok
    cases hp : iviewPrelude page.videoParams with
    | error e => simp [ABCIViewIE.realExtract, hp]
    | ok tri =>
        obtain ⟨title, stream, hn⟩ := tri
        simp [ABCIViewIE.realExtract, hp,
              htok (requestUrl ts1 hn) (requestUrl ts2 hn)]

/-- Witness for C9 at the full concrete configuration with a fixed token
response, at two different timestamps. -/
theorem c9_idempotence_witness :
    ABCIViewIE.realExtract "ZW0898A003S00" (mkIviewPage vpFull) host0 1
      = ABCIViewIE.realExtract "ZW0898A003S00" (mkIviewPage vpFull) host0 2 :=
  c9_idempotence.2 "ZW0898A003S00" (mkIviewPage vpFull) host0 1 2 (fun _ _ => rfl)

/-- C10: With no `episodeHouseNumber` field the signing step does not
fail: the house-number slot of the path is the literal `None`, the
signature is computed over that path, and extraction proceeds to the
token request for that signed URL. -/
theorem c10_missing_house_number :
    ∀ (videoId : String) (page : IviewPage) (host : IviewHost) (ts : Nat)
      (title stream : JVal),
      iviewPrelude page.videoParams = .ok (title, stream, none) →
      signPath ts none = "/auth/hls/sign?ts=" ++ toString ts ++ "&hn=None&d=android-mobile"
      ∧ requestUrl ts none = tokenUrl (signPath ts none) (sign (signPath ts none))
      ∧ ABCIViewIE.realExtract videoId page host ts
          = finishExtract videoId page host title stream
              (host.tokenFor (requestUrl ts none)) := by
  intro videoId page host ts title stream hp
  refine ⟨?_, rfl, ?_⟩
  · apply String.ext
    have hlit : ("&hn=".data ++ ("None".data ++ "&d=android-mobile".data))
        = "&hn=None&d=android-mobile".data := rfl
    simp [signPath, pyStr, String.data_append, List.append_assoc, hlit]
  · simp [ABCIViewIE.realExtract, hp]

/-- Witness for C10 at a concrete configuration lacking
`episodeHouseNumber`. -/
theorem c10_missing_house_number_witness :
    signPath 7 none = "/auth/hls/sign?ts=" ++ toString 7 ++ "&hn=None&d=android-mobile"
    ∧ requestUrl 7 none = tokenUrl (signPath 7 none) (sign (signPath 7 none))
    ∧ ABCIViewIE.realExtract "ZX0001A001S00" (mkIviewPage vpNoHn) host0 7
        = finishExtract "ZX0001A001S00" (mkIviewPage vpNoHn) host0
            (JVal.str "Ep") streamFull (host0.tokenFor (requestUrl 7 none)) :=
  c10_missing_house_number "ZX0001A001S00" (mkIviewPage vpNoHn) host0 7
    (JVal.str "Ep") streamFull rfl

end Abc

